import Mathlib

/-!
Verification development for the aiodav WebDAV client (src/aiodav).

The embedding works at the byte level: a Python string is modelled as the
list of bytes of its UTF-8 encoding (`List Nat`, each element a byte value).
All percent-encoding, regex-based path normalisation, URL splitting and
header construction from `aiodav/urn.py`, `aiodav/utils.py` and
`aiodav/client.py` are translated as computable functions on byte lists.
Network effects are modelled as a trace of issued requests together with an
`Except`-style result, driven by an `Env` oracle standing for the remote
server; the local filesystem is an explicit finite map.
-/

namespace Aiodav

/-- Byte string of an ASCII string literal (used for constants of the model). -/
def ascii (s : String) : List Nat := s.toList.map Char.toNat

/-- The separator byte, `Urn.separate = "/"` (urn.py line 7). -/
def sepB : Nat := 47

/-- The dot byte `.` appearing in the normalisation regex (urn.py line 11). -/
def dotB : Nat := 46

/-- The percent byte used by urllib quote/unquote. -/
def pctB : Nat := 37

/-- Bytes that `urllib.parse.quote` leaves unencoded with the default
`safe='/'`: ASCII letters, digits, `_.-~` and the slash. -/
def isSafeB (b : Nat) : Bool :=
  (65 ≤ b && b ≤ 90) || (97 ≤ b && b ≤ 122) || (48 ≤ b && b ≤ 57) ||
    b == 95 || b == 46 || b == 45 || b == 126 || b == 47

/-- Uppercase hex digit of a value below 16, as produced by quote. -/
def hexUp (v : Nat) : Nat := if v < 10 then 48 + v else 55 + v

/-- Is the byte a hexadecimal digit (case-insensitive, as accepted by
`urllib.parse.unquote`)? -/
def isHexB (b : Nat) : Bool :=
  (48 ≤ b && b ≤ 57) || (65 ≤ b && b ≤ 70) || (97 ≤ b && b ≤ 102)

/-- Is the byte an uppercase hexadecimal digit (as produced by quote)? -/
def isUpHexB (b : Nat) : Bool := (48 ≤ b && b ≤ 57) || (65 ≤ b && b ≤ 70)

/-- Numeric value of a hexadecimal digit byte. -/
def hexVal (b : Nat) : Nat :=
  if 48 ≤ b && b ≤ 57 then b - 48
  else if 65 ≤ b && b ≤ 70 then b - 55
  else if 97 ≤ b && b ≤ 102 then b - 87
  else 0

/-- `urllib.parse.quote(path)` at the byte level: safe bytes pass through,
every other byte becomes `%` followed by two uppercase hex digits. -/
def quoteB (s : List Nat) : List Nat :=
  s.flatMap fun b => if isSafeB b then [b] else [pctB, hexUp (b / 16), hexUp (b % 16)]

/-- `urllib.parse.unquote` at the byte level: a `%` followed by two hex
digits decodes to that byte; an invalid `%`-sequence stays literal (CPython
keeps the `%` and re-scans from the following character). -/
def unquoteB : List Nat → List Nat
  | 37 :: h1 :: h2 :: rest' =>
    if isHexB h1 && isHexB h2 then (16 * hexVal h1 + hexVal h2) :: unquoteB rest'
    else 37 :: unquoteB (h1 :: h2 :: rest')
  | b :: rest => b :: unquoteB rest
  | [] => []

theorem length_dropWhile_le (p : Nat → Bool) (l : List Nat) :
    (l.dropWhile p).length ≤ l.length := by
  induction l with
  | nil => simp [List.dropWhile]
  | cons a l ih =>
    rw [List.dropWhile]
    cases p a
    · simp
    · simp only [List.length_cons]; omega

/-- The first regex pass of `Urn.__init__` (urn.py lines 11-13):
`re.sub("/\\.+/", "/", path)` scanning left to right, each match being a
slash, one or more dots, and a closing slash, replaced by a single slash
(the closing slash is consumed by the match). -/
def sub1 : List Nat → List Nat
  | [] => []
  | b :: rest =>
    if b = 47 ∧ rest.takeWhile (fun x => x == 46) ≠ [] ∧
        (rest.dropWhile (fun x => x == 46)).head? = some 47 then
      47 :: sub1 (rest.dropWhile (fun x => x == 46)).tail
    else
      b :: sub1 rest
termination_by s => s.length
decreasing_by
  · have h1 := length_dropWhile_le (fun x => x == 46) rest
    have h2 : (rest.dropWhile (fun x => x == 46)).tail.length ≤
        (rest.dropWhile (fun x => x == 46)).length := by
      cases rest.dropWhile (fun x => x == 46) <;> simp
    simp only [List.length_cons]
    omega
  · simp only [List.length_cons]; omega

/-- The second regex pass of `Urn.__init__` and the collapsing step of
`Urn.normalize_path`: replace every run of consecutive slashes by one. -/
def collapse2 : List Nat → List Nat
  | [] => []
  | [b] => [b]
  | a :: b :: rest =>
    if a = 47 ∧ b = 47 then collapse2 (b :: rest) else a :: collapse2 (b :: rest)

/-- Ensure the path starts with the separator (urn.py lines 15-17). -/
def ensureLeading (s : List Nat) : List Nat :=
  if s.head? = some 47 then s else 47 :: s

/-- The locator: holds the percent-encoded, normalised path (`Urn._path`). -/
structure Urn where
  stored : List Nat
deriving DecidableEq

/-- `Urn.__init__(path, directory)` (urn.py lines 9-21): quote, collapse
dot-segments, collapse slash runs, ensure a leading slash, and when
`directory` is set ensure a trailing slash. -/
def urnInit (path : List Nat) (directory : Bool) : Urn :=
  let s := ensureLeading (collapse2 (sub1 (quoteB path)))
  ⟨if directory ∧ s.getLast? ≠ some 47 then s ++ [47] else s⟩

/-- `Urn.path()`: the decoded path. -/
def urnPath (u : Urn) : List Nat := unquoteB u.stored

/-- `Urn.is_dir()`: whether the stored path ends with the separator
(urn.py lines 52-53; the stored path is never empty). -/
def urnIsDir (u : Urn) : Bool := u.stored.getLast? == some 47

/-- `Urn.nesting_level()`: slashes in the stored path excluding its last
character (urn.py lines 49-50). -/
def urnNestingLevel (u : Urn) : Nat := u.stored.dropLast.count 47

/-- `Urn.filename()` (urn.py lines 32-36). -/
def urnFilename (u : Urn) : List Nat :=
  let parts := u.stored.splitOn 47
  let name :=
    if parts.getLast? = some [] then (parts.getD (parts.length - 2) []) ++ [47]
    else parts.getLastD []
  unquoteB name

/-- `Urn.parent()` (urn.py lines 38-47): join the first `nesting_level`
slash-separated segments, use the bare separator at level one, ensure a
trailing slash, and decode. -/
def urnParent (u : Urn) : List Nat :=
  let parts := u.stored.splitOn 47
  let nl := urnNestingLevel u
  let parent := if nl = 1 then [47] else List.intercalate [47] (parts.take nl)
  if parent.getLast? = some 47 then unquoteB parent else unquoteB (parent ++ [47])

/-- `Urn.normalize_path` (urn.py lines 56-58): collapse slash runs and drop
one trailing slash. -/
def normalizePath (p : List Nat) : List Nat :=
  let r := collapse2 p
  if r.getLast? = some 47 then r.dropLast else r

/-- Is the byte an ASCII letter (for URL scheme detection)? -/
def isAlphaB (b : Nat) : Bool := (65 ≤ b && b ≤ 90) || (97 ≤ b && b ≤ 122)

/-- Characters allowed in a URL scheme by `urllib.parse`. -/
def isSchemeCharB (b : Nat) : Bool :=
  isAlphaB b || (48 ≤ b && b ≤ 57) || b == 43 || b == 45 || b == 46

/-- Does the byte string start with an ASCII letter? -/
def headAlphaB (s : List Nat) : Bool :=
  match s.head? with
  | some b => isAlphaB b
  | none => false

/-- Strip a leading colon-terminated scheme as `urllib.parse.urlsplit` does:
the first colon must come after a nonempty run of scheme characters starting
with a letter. -/
def stripScheme (s : List Nat) : List Nat :=
  match s.findIdx? (fun b => b == 58) with
  | some i =>
    if 0 < i ∧ headAlphaB s ∧ (s.take i).all isSchemeCharB then s.drop (i + 1)
    else s
  | none => s

/-- Strip a `//netloc` prefix: the netloc extends to the first `/`, `?` or
`#` (CPython `_splitnetloc`). -/
def stripNetloc (s : List Nat) : List Nat :=
  if s.take 2 = [47, 47] then
    let rest := s.drop 2
    rest.drop (rest.findIdx fun b => b == 47 || b == 63 || b == 35)
  else s

/-- The `.path` component of `urllib.parse.urlsplit(href)`: strip scheme and
netloc, then cut at the first `#` and the first `?`. -/
def urlsplitPath (s : List Nat) : List Nat :=
  (((stripNetloc (stripScheme s)).takeWhile fun b => b ≠ 35).takeWhile fun b => b ≠ 63)

/-- `Urn.compare_path(path_a, href)` (urn.py lines 60-63): prefix the
decoded URL path of `href` with a separator and compare both sides after
`normalize_path`. -/
def comparePath (pathA : List Nat) (href : List Nat) : Bool :=
  normalizePath pathA == normalizePath (47 :: unquoteB (urlsplitPath href))

/-- The error taxonomy of `aiodav/exceptions.py` (imported with star by
client.py; the module itself is not shipped under src, but every
constructor below is the exception class of the same name raised in
client.py / utils.py, with the argument it is raised with), plus the two
Python built-in errors that can escape the code as written:
`attributeErr` models Python's AttributeError (raised when an undefined
attribute such as `self.check` is looked up) and `valueErr` models an
uncaught ValueError. -/
inductive Err where
  | notEnoughSpace
  | remoteResourceNotFound (path : List Nat)
  | remoteParentNotFound (path : List Nat)
  | methodNotSupported (name : String)
  | responseErrorCode (code : Nat)
  | optionNotValid (name : String) (value : List Nat)
  | localResourceNotFound (path : List Nat)
  | osError (path : List Nat)
  | attributeErr (name : String)
  | valueErr
deriving DecidableEq

/-- One wire request issued through `Client._execute_request`: the action
name, the WebDAV method it maps to, the `path` argument (a quoted
server-relative path), the merged headers, and the request payload (for
PUT/PROPPATCH bodies). The transport-level re-authentication GET that
`_execute_request` may issue on sessions with basic auth is part of the
out-of-scope HTTP transport and is not traced. -/
structure Req where
  action : String
  method : String
  path : List Nat
  headers : List (String × List Nat)
  payload : Option (List Nat)
deriving DecidableEq

/-- One `response` element of a multistatus body, as consumed by
`WebDavXmlUtils.parse_get_list_response` / `parse_get_list_info_response`:
the optional `href` text, whether a `collection` node is present under the
response, and the findtext results for the metadata attributes. -/
structure RawResp where
  href : Option (List Nat)
  isCollection : Bool
  meta : List (String × Option (List Nat))
deriving DecidableEq

/-- One entry of the `get_info=True` listing result (a dictionary in the
source): metadata fields plus `isdir` and `path`. -/
structure InfoEntry where
  meta : List (String × Option (List Nat))
  isdir : Bool
  path : List Nat
deriving DecidableEq

/-- The remote-server oracle: configured hostname/root/token/chunk size of
the `Client`, the status code the server answers each (action, path) request
with, and the multistatus body it returns to the listing PROPFIND
(`none` standing for a body that fails XML parsing). -/
structure Env where
  hostname : List Nat
  root : List Nat
  token : Option (List Nat)
  chunkSize : Nat
  status : String → List Nat → Nat
  listBody : Option (List RawResp)

/-- `Client.DEFAULT_REQUESTS` (client.py lines 79-96): action → method. -/
def defaultRequests (a : String) : String :=
  if a = "options" then "OPTIONS"
  else if a = "download" then "GET"
  else if a = "upload" then "PUT"
  else if a = "copy" then "COPY"
  else if a = "move" then "MOVE"
  else if a = "mkdir" then "MKCOL"
  else if a = "clean" then "DELETE"
  else if a = "check" then "HEAD"
  else if a = "list" then "PROPFIND"
  else if a = "free" then "PROPFIND"
  else if a = "info" then "PROPFIND"
  else if a = "publish" then "PROPPATCH"
  else if a = "unpublish" then "PROPPATCH"
  else if a = "published" then "PROPPATCH"
  else if a = "get_property" then "PROPFIND"
  else if a = "set_property" then "PROPPATCH"
  else ""

/-- `Client.DEFAULT_HTTP_HEADER` (client.py lines 65-76), after the
split-on-colon-and-strip performed by `_get_headers`. -/
def defaultHeaders (a : String) : List (String × List Nat) :=
  if a = "list" then [("Accept", ascii "*/*"), ("Depth", ascii "1")]
  else if a = "free" then
    [("Accept", ascii "*/*"), ("Depth", ascii "0"), ("Content-Type", ascii "text/xml")]
  else if a = "copy" then [("Accept", ascii "*/*")]
  else if a = "move" then [("Accept", ascii "*/*")]
  else if a = "mkdir" then [("Accept", ascii "*/*"), ("Connection", ascii "Keep-Alive")]
  else if a = "clean" then [("Accept", ascii "*/*"), ("Connection", ascii "Keep-Alive")]
  else if a = "check" then [("Accept", ascii "*/*")]
  else if a = "info" then [("Accept", ascii "*/*"), ("Depth", ascii "1")]
  else if a = "get_property" then
    [("Accept", ascii "*/*"), ("Depth", ascii "1"),
      ("Content-Type", ascii "application/x-www-form-urlencoded")]
  else if a = "set_property" then
    [("Accept", ascii "*/*"), ("Depth", ascii "1"),
      ("Content-Type", ascii "application/x-www-form-urlencoded")]
  else []

/-- Python dict update of one key in an association list. -/
def hdrSet (hs : List (String × List Nat)) (k : String) (v : List Nat) :
    List (String × List Nat) :=
  if hs.any (fun kv => kv.1 == k) then
    hs.map (fun kv => if kv.1 == k then (k, v) else kv)
  else hs ++ [(k, v)]

/-- `Client._get_headers` (client.py lines 130-148): the fixed per-action
headers, updated by the caller-supplied extension headers, then by the
bearer token when one is configured. -/
def getHeaders (env : Env) (action : String) (ext : List (String × List Nat)) :
    List (String × List Nat) :=
  let merged := ext.foldl (fun acc kv => hdrSet acc kv.1 kv.2) (defaultHeaders action)
  match env.token with
  | some t => hdrSet merged "Authorization" (ascii "Bearer " ++ t)
  | none => merged

/-- `Client._execute_request` (client.py lines 162-198): issue the request,
then map the status code: 507 → NotEnoughSpace, 404 → RemoteResourceNotFound,
405 → MethodNotSupported, any other ≥ 400 → ResponseErrorCode; otherwise the
response (represented by its status code) is returned. -/
def executeRequest (env : Env) (action : String) (path : List Nat)
    (ext : List (String × List Nat)) (payload : Option (List Nat)) :
    List Req × Except Err Nat :=
  let st := env.status action path
  ([⟨action, defaultRequests action, path, getHeaders env action ext, payload⟩],
    if st = 507 then .error .notEnoughSpace
    else if st = 404 then .error (.remoteResourceNotFound path)
    else if st = 405 then .error (.methodNotSupported action)
    else if 400 ≤ st then .error (.responseErrorCode st)
    else .ok st)

/-- Sequencing of two traced computations: errors short-circuit, traces
accumulate (mirrors sequential awaits in an async method body). -/
def thenE {α β : Type} (a : List Req × Except Err α)
    (f : α → List Req × Except Err β) : List Req × Except Err β :=
  match a with
  | (tr, .error e) => (tr, .error e)
  | (tr, .ok x) => ((tr ++ (f x).1), (f x).2)

/-- `Client.exists` (client.py lines 283-307): HEAD the resource;
RemoteResourceNotFound and ResponseErrorCode become `false`, any other
error propagates, and a plain response is `true` exactly for status 200. -/
def existsOp (env : Env) (path : List Nat) : List Req × Except Err Bool :=
  let urn := urnInit path false
  let r := executeRequest env "check" urn.stored [] none
  (r.1,
    match r.2 with
    | .error (.remoteResourceNotFound _) => .ok false
    | .error (.responseErrorCode _) => .ok false
    | .error e => .error e
    | .ok st => .ok (st == 200))

/-- `WebDavXmlUtils.parse_get_list_response` (utils.py lines 46-65):
responses without an href are skipped, each kept href yields
`Urn("/" + unquote(urlsplit(href).path), is_dir)`; an unparseable body
yields the empty list. -/
def parseGetListResponse (body : Option (List RawResp)) : List Urn :=
  match body with
  | none => []
  | some rs => rs.filterMap fun r =>
      r.href.map fun h => urnInit (47 :: unquoteB (urlsplitPath h)) r.isCollection

/-- `WebDavXmlUtils.parse_get_list_info_response` (utils.py lines 13-44):
as above but producing info entries whose `path` is the decoded URL path of
the href (without the prepended separator used in the names variant). -/
def parseGetListInfoResponse (body : Option (List RawResp)) : List InfoEntry :=
  match body with
  | none => []
  | some rs => rs.filterMap fun r =>
      r.href.map fun h => ⟨r.meta, r.isCollection, unquoteB (urlsplitPath h)⟩

/-- The normalized full path `Client.list` compares listing entries against:
`Urn.normalize_path(self.get_full_path(directory_urn))` with
`get_full_path(urn) = root + urn.path()`. -/
def listFull (env : Env) (path : List Nat) : List Nat :=
  normalizePath (env.root ++ urnPath (urnInit path true))

/-- The urns `Client.list` keeps in the `get_info=False` branch: parsed
urns whose path does not compare equal to the requested directory. -/
def listKeptUrns (env : Env) (path : List Nat) : List Urn :=
  (parseGetListResponse env.listBody).filter fun u =>
    !(comparePath (listFull env path) (urnPath u))

/-- The entries `Client.list` keeps in the `get_info=True` branch. -/
def listKeptInfos (env : Env) (path : List Nat) : List InfoEntry :=
  (parseGetListInfoResponse env.listBody).filter fun e =>
    !(comparePath (listFull env path) e.path)

/-- Result of `Client.list`: file/directory names, or info entries. -/
inductive ListOut where
  | names (l : List (List Nat))
  | infos (l : List InfoEntry)
deriving DecidableEq

/-- `Client.list` (client.py lines 225-267): unless the directory urn is the
root, require the path to exist (else RemoteResourceNotFound); issue the
listing PROPFIND; parse and self-exclude via `Urn.compare_path`. -/
def listOp (env : Env) (path : List Nat) (getInfo : Bool) :
    List Req × Except Err ListOut :=
  let durn := urnInit path true
  let pre : List Req × Except Err Unit :=
    if urnPath durn ≠ [47] then
      thenE (existsOp env (urnPath durn)) fun b =>
        if b then ([], .ok ())
        else ([], .error (.remoteResourceNotFound (urnPath durn)))
    else ([], .ok ())
  thenE pre fun _ =>
    thenE (executeRequest env "list" durn.stored [] none) fun _ =>
      if getInfo then ([], .ok (.infos (listKeptInfos env path)))
      else ([], .ok (.names ((listKeptUrns env path).map urnFilename)))

/-- `Client.create_directory` (client.py lines 309-334): require the parent
to exist (else RemoteParentNotFound), issue MKCOL; a MethodNotSupported
(status 405) from the request is treated as success, any other error
propagates, and a plain response succeeds iff the status is 200 or 201. -/
def createDirectoryOp (env : Env) (path : List Nat) : List Req × Except Err Bool :=
  let durn := urnInit path true
  thenE (existsOp env (urnParent durn)) fun b =>
    if b then
      let r := executeRequest env "mkdir" durn.stored [] none
      (r.1,
        match r.2 with
        | .error (.methodNotSupported _) => .ok true
        | .error e => .error e
        | .ok st => .ok (st == 200 || st == 201))
    else ([], .error (.remoteParentNotFound (urnPath durn)))

/-- `Client.move` (client.py lines 432-466): require the source to exist
(else RemoteResourceNotFound), require the destination's parent to exist
(else RemoteParentNotFound), then issue MOVE with the Destination and
Overwrite extension headers. -/
def moveOp (env : Env) (source destination : List Nat) (overwrite : Bool) :
    List Req × Except Err Unit :=
  let urnFrom := urnInit source false
  thenE (existsOp env (urnPath urnFrom)) fun b =>
    if b then
      let urnTo := urnInit destination false
      thenE (existsOp env (urnParent urnTo)) fun b2 =>
        if b2 then
          thenE (executeRequest env "move" urnFrom.stored
              [("Destination", env.hostname ++ env.root ++ urnTo.stored),
               ("Overwrite", ascii (if overwrite then "T" else "F"))] none)
            fun _ => ([], .ok ())
        else ([], .error (.remoteParentNotFound (urnPath urnTo)))
    else ([], .error (.remoteResourceNotFound (urnPath urnFrom)))

/-- `Client.unlink` (client.py lines 399-414): DELETE without precondition. -/
def unlinkOp (env : Env) (path : List Nat) : List Req × Except Err Unit :=
  thenE (executeRequest env "clean" (urnInit path false).stored [] none) fun _ =>
    ([], .ok ())

/-- The possible states of a free-space response body for
`WebDavXmlUtils.parse_free_space_response` (utils.py lines 80-98):
either the body fails XML parsing, or it parses and the
`quota-available-bytes` node is absent, present with no text (findtext
returning None), present with integer text, or present with non-integer
text. -/
inductive QuotaNode where
  | noText
  | intText (n : Int)
  | badText
deriving DecidableEq

/-- A free-space response body: unparseable, or parsed with an optional
`quota-available-bytes` node. -/
inductive FreeSpaceBody where
  | malformed
  | tree (node : Option QuotaNode)
deriving DecidableEq

/-- `WebDavXmlUtils.parse_free_space_response` (utils.py lines 80-98):
node present with integer text → that integer; node absent →
MethodNotSupported; node present with None text → int(None) raises a
TypeError which the code catches and turns into MethodNotSupported; node
present with non-integer text → int(...) raises an uncaught ValueError;
XMLSyntaxError → the code returns -1 (a line marked TODO in the source). -/
def parseFreeSpaceResponse : FreeSpaceBody → Except Err Int
  | .malformed => .ok (-1)
  | .tree none => .error (.methodNotSupported "free")
  | .tree (some .noText) => .error (.methodNotSupported "free")
  | .tree (some .badText) => .error .valueErr
  | .tree (some (.intText n)) => .ok n

/-- A local filesystem node: a regular file with contents, or a directory
with a list of child names. -/
inductive FsNode where
  | file (content : List Nat)
  | dir (children : List (List Nat))
deriving DecidableEq

/-- The local filesystem capability: a partial map from paths to nodes. -/
structure Fs where
  node : List Nat → Option FsNode

/-- `os.path.isdir`: the path exists and is a directory. -/
def Fs.isdir (fs : Fs) (p : List Nat) : Bool :=
  match fs.node p with
  | some (.dir _) => true
  | _ => false

/-- `os.path.exists`. -/
def Fs.pathExists (fs : Fs) (p : List Nat) : Bool := (fs.node p).isSome

/-- `os.listdir`. -/
def Fs.children (fs : Fs) (p : List Nat) : List (List Nat) :=
  match fs.node p with
  | some (.dir c) => c
  | _ => []

/-- `aiohttp` `iter_chunked(cs)` / repeated `read(cs)`: split a byte stream
into maximal chunks of `cs` bytes (the guard on `cs = 0` only keeps the
model total; the client never passes 0, falsy chunk sizes are replaced by
65536 in `Client.__init__`). -/
def chunked (cs : Nat) (body : List Nat) : List (List Nat) :=
  if body = [] ∨ cs = 0 then [] else body.take cs :: chunked cs (body.drop cs)
termination_by body.length
decreasing_by
  rename_i h
  rw [not_or] at h
  have h1 : body.length ≠ 0 := by
    intro hl
    exact h.1 (List.eq_nil_of_length_eq_zero hl)
  rw [List.length_drop]
  omega

/-- The cumulative progress reports of a chunked transfer loop: one
`(current, total)` pair after each chunk. -/
def progressSeq : List (List Nat) → Nat → Nat → List (Nat × Nat)
  | [], _, _ => []
  | c :: rest, cur, t => (cur + c.length, t) :: progressSeq rest (cur + c.length) t

/-- The progress-callback invocations of `Client.download_to`
(client.py lines 598-620): `(0, total)` before the loop, then the
cumulative count after each chunk of the response body, with `total` the
content-length header (equal to the body length for a well-formed
response). -/
def downloadCallbacks (cs : Nat) (body : List Nat) : List (Nat × Nat) :=
  (0, body.length) :: progressSeq (chunked cs body) 0 body.length

/-- The bytes `Client.download_to` writes into the caller's buffer. -/
def downloadWritten (cs : Nat) (body : List Nat) : List Nat :=
  (chunked cs body).flatten

/-- The `file_sender` generator of `Client.upload_to` (client.py lines
845-865): while `current < buffer_size`, read up to `chunk_size` bytes,
stop on an empty read, report progress after each read and yield the chunk.
Returns the yielded chunks and the after-read progress reports (the initial
`(0, buffer_size)` report is prepended by `uploadCallbacks`). -/
def fileSender (cs bufferSize : Nat) (buf : List Nat) (current : Nat) :
    List (List Nat) × List (Nat × Nat) :=
  if current < bufferSize then
    if h : buf.take cs = [] then ([], [])
    else
      let next := fileSender cs bufferSize (buf.drop cs) (current + (buf.take cs).length)
      (buf.take cs :: next.1, (current + (buf.take cs).length, bufferSize) :: next.2)
  else ([], [])
termination_by buf.length
decreasing_by
  rw [List.length_drop]
  have h1 : buf ≠ [] := fun hb => h (by simp [hb])
  have h2 : cs ≠ 0 := fun hz => h (by simp [hz])
  have h3 : buf.length ≠ 0 := fun hl => h1 (List.eq_nil_of_length_eq_zero hl)
  omega

/-- The full progress-callback sequence of an upload through
`file_sender`: `(0, buffer_size)` first, then one report per read. -/
def uploadCallbacks (cs bufferSize : Nat) (buf : List Nat) : List (Nat × Nat) :=
  (0, bufferSize) :: (fileSender cs bufferSize buf 0).2

/-- `Client.upload_to` (client.py lines 783-869): reject a path in
directory form (OptionNotValid), require the parent to exist (else
RemoteParentNotFound); with a progress callback (and a plain reader) the
request body is the sequence of chunks yielded by `file_sender`, otherwise
the buffer is handed to the request as-is. -/
def uploadToOp (env : Env) (path : List Nat) (buf : List Nat) (bufferSize : Nat)
    (progress : Bool) : List Req × Except Err Unit :=
  let urn := urnInit path false
  if urnIsDir urn then ([], .error (.optionNotValid "path" path))
  else
    thenE (existsOp env (urnParent urn)) fun b =>
      if b then
        let payload := if progress then (fileSender env.chunkSize bufferSize buf 0).1.flatten
          else buf
        thenE (executeRequest env "upload" urn.stored [] (some payload)) fun _ =>
          ([], .ok ())
      else ([], .error (.remoteParentNotFound (urnPath urn)))

/-- `Client.upload_file` (client.py lines 871-925): open the local file
(an absent or non-file path raises an OSError from aiofiles.open), take its
size, delegate to upload_to. -/
def uploadFileOp (fs : Fs) (env : Env) (remotePath localPath : List Nat)
    (progress : Bool) : List Req × Except Err Unit :=
  match fs.node localPath with
  | some (.file content) => uploadToOp env remotePath content content.length progress
  | _ => ([], .error (.osError localPath))

/-- `Client.upload` (client.py lines 991-1037): dispatches on
`os.path.isdir(local_path)`, but calls `self.upload_directory` /
`self.upload_file` WITHOUT awaiting them: each branch only constructs a
coroutine object and discards it, so no request is issued and no bytes are
transferred by either branch; the method returns None immediately. -/
def uploadOp (fs : Fs) (_env : Env) (_remotePath localPath : List Nat) :
    List Req × Except Err Unit :=
  if fs.isdir localPath then ([], .ok ()) else ([], .ok ())

/-- `Client.upload_directory` (client.py lines 927-989): reject a non-dir
remote urn (unreachable: the urn is built in directory form), reject a
local path that is not a directory (OptionNotValid on local_path), then a
local path that does not exist (LocalResourceNotFound), delete the remote
directory if it exists, recreate it, and upload every child sequentially
(each child upload goes through `Client.upload`, whose nested transfer is
never awaited). -/
def uploadDirectoryOp (fs : Fs) (env : Env) (remotePath localPath : List Nat) :
    List Req × Except Err Unit :=
  let urn := urnInit remotePath true
  if !(urnIsDir urn) then ([], .error (.optionNotValid "remote_path" remotePath))
  else if !(fs.isdir localPath) then ([], .error (.optionNotValid "local_path" localPath))
  else if !(fs.pathExists localPath) then ([], .error (.localResourceNotFound localPath))
  else
    thenE (existsOp env (urnPath urn)) fun b =>
      thenE (if b then unlinkOp env (urnPath urn) else ([], .ok ())) fun _ =>
        thenE (createDirectoryOp env remotePath) fun _ =>
          (fs.children localPath).foldl
            (fun acc name =>
              thenE acc fun _ =>
                uploadOp fs env ((urnPath urn ++ name).filter (fun b => b ≠ 92))
                  (localPath ++ 47 :: name))
            ([], .ok ())

/-- The method names defined on `class Client` in client.py (there is no
method named check; `Client.set_property` at line 1089 nevertheless invokes
`self.check`, so attribute resolution fails). -/
def clientMethodNames : List String :=
  ["__init__", "_get_headers", "_get_url", "get_full_path", "_execute_request",
   "__enter__", "__exit__", "__aenter__", "__aexit__", "list", "free", "exists",
   "create_directory", "_check_remote_resource", "is_directory", "info",
   "unlink", "delete", "move", "copy", "download_iter", "download_to",
   "download_file", "download_directory", "download", "upload_to",
   "upload_file", "upload_directory", "upload", "get_property", "set_property",
   "close", "resource"]

/-- A property option passed to get/set property: optional namespace,
name, optional value. -/
structure PropOption where
  ns : Option String
  name : String
  value : Option String

/-- `Client.set_property` (client.py lines 1069-1093): builds the urn, then
evaluates `await self.check(urn.path())` — but `Client` has no attribute
named check, so the lookup raises AttributeError before any request is
issued; the PROPPATCH branch below the lookup is unreachable (it is
modelled as a bare success placeholder). -/
def setPropertyOp (_env : Env) (_path : List Nat) (_opt : PropOption) :
    List Req × Except Err Unit :=
  if clientMethodNames.contains "check" then ([], .ok ())
  else ([], .error (.attributeErr "check"))

/-- A concrete server oracle (answers every request with 200, chunk size 2)
used to instantiate universally quantified theorems. -/
def demoEnv : Env :=
  { hostname := ascii "http://h", root := [], token := none, chunkSize := 2,
    status := fun _ _ => 200, listBody := none }

/-- A concrete local filesystem holding one three-byte file. -/
def demoFs : Fs :=
  ⟨fun p => if p = ascii "/local/f.bin" then some (.file [1, 2, 3]) else none⟩

/-! ### Shared lemmas -/

theorem thenE_err {α β : Type} {a : List Req × Except Err α} {e : Err}
    (f : α → List Req × Except Err β) (h : a.2 = .error e) :
    thenE a f = (a.1, .error e) := by
  obtain ⟨tr, r⟩ := a
  cases r with
  | error e2 =>
    simp only at h
    rw [h]
    rfl
  | ok x => simp at h

theorem thenE_ok {α β : Type} {a : List Req × Except Err α} {x : α}
    (f : α → List Req × Except Err β) (h : a.2 = .ok x) :
    thenE a f = (a.1 ++ (f x).1, (f x).2) := by
  obtain ⟨tr, r⟩ := a
  cases r with
  | error e2 => simp at h
  | ok y =>
    simp only at h
    rw [h]
    rfl

theorem existsOp_fst (env : Env) (p : List Nat) :
    (existsOp env p).1 =
      [⟨"check", "HEAD", (urnInit p false).stored, getHeaders env "check" [], none⟩] := rfl

theorem existsOp_action (env : Env) (p : List Nat) (r : Req)
    (h : r ∈ (existsOp env p).1) : r.action = "check" := by
  rw [existsOp_fst] at h
  simp only [List.mem_singleton] at h
  rw [h]

/-- The then-branch of `urnInit` always yields a path ending in the
separator. -/
theorem urnInit_dir_isDir (p : List Nat) : urnIsDir (urnInit p true) = true := by
  unfold urnIsDir urnInit
  by_cases h : (ensureLeading (collapse2 (sub1 (quoteB p)))).getLast? = some 47
  · simp [h]
  · simp [h, List.getLast?_concat]

/-- `Client.upload` returns at once with no trace: neither nested coroutine
is awaited, so neither branch contributes effects. -/
theorem uploadOp_eq (fs : Fs) (env : Env) (rp lp : List Nat) :
    uploadOp fs env rp lp = ([], .ok ()) := by
  unfold uploadOp
  exact ite_self _

/-- No primary request maps its status to LocalResourceNotFound. -/
theorem executeRequest_ne_local (env : Env) (a : String) (p : List Nat)
    (ext : List (String × List Nat)) (d : Option (List Nat)) (l : List Nat) :
    (executeRequest env a p ext d).2 ≠ .error (.localResourceNotFound l) := by
  unfold executeRequest
  dsimp only
  split_ifs <;> simp

theorem existsOp_ne_local (env : Env) (p : List Nat) (l : List Nat) :
    (existsOp env p).2 ≠ .error (.localResourceNotFound l) := by
  unfold existsOp
  have h := executeRequest_ne_local env "check" (urnInit p false).stored [] none l
  rcases hr : (executeRequest env "check" (urnInit p false).stored [] none).2 with e | st
  · rw [hr] at h
    cases e <;> simp_all
  · simp [hr]

theorem thenE_ne_err {α β : Type} (a : List Req × Except Err α)
    (f : α → List Req × Except Err β) (e : Err) (ha : a.2 ≠ .error e)
    (hf : ∀ x, (f x).2 ≠ .error e) : (thenE a f).2 ≠ .error e := by
  obtain ⟨tr, r⟩ := a
  cases r with
  | error e2 => simpa [thenE] using ha
  | ok x => simpa [thenE] using hf x

theorem unlinkOp_ne_local (env : Env) (p : List Nat) (l : List Nat) :
    (unlinkOp env p).2 ≠ .error (.localResourceNotFound l) := by
  unfold unlinkOp
  exact thenE_ne_err _ _ _ (executeRequest_ne_local _ _ _ _ _ _) (by simp)

theorem createDirectoryOp_ne_local (env : Env) (p : List Nat) (l : List Nat) :
    (createDirectoryOp env p).2 ≠ .error (.localResourceNotFound l) := by
  unfold createDirectoryOp
  refine thenE_ne_err _ _ _ (existsOp_ne_local _ _ _) fun b => ?_
  cases b
  · simp
  · simp only [if_true]
    have h := executeRequest_ne_local env "mkdir" (urnInit p true).stored [] none l
    rcases hr : (executeRequest env "mkdir" (urnInit p true).stored [] none).2 with e | st
    · rw [hr] at h
      cases e <;> simp_all
    · simp [hr]

theorem isdir_pathExists (fs : Fs) (p : List Nat) (h : fs.isdir p = true) :
    fs.pathExists p = true := by
  unfold Fs.isdir at h
  unfold Fs.pathExists
  rcases hn : fs.node p with _ | n
  · rw [hn] at h
    simp at h
  · simp

theorem foldl_thenE_ne (l : List (List Nat))
    (g : List Nat → List Req × Except Err Unit) (hg : ∀ n, g n = ([], .ok ()))
    (e : Err) :
    ∀ start : List Req × Except Err Unit, start.2 ≠ .error e →
      (l.foldl (fun acc n => thenE acc fun _ => g n) start).2 ≠ .error e := by
  induction l with
  | nil => intro start hs; exact hs
  | cons n rest ih =>
    intro start hs
    refine ih _ ?_
    refine thenE_ne_err start _ e hs fun x => ?_
    rw [hg n]
    simp

/-! ### C1, C2, C4 -/

/-- C1: the claim states that for every existing resource setProperty
succeeds with one PROPPATCH and a subsequent getProperty returns the value.
In the code, `Client.set_property` first evaluates `self.check(...)`
(client.py line 1089), but class Client defines no attribute named check
(it defines `exists`), so every call raises AttributeError before issuing
any request: the PROPPATCH is never sent, for any server and any path. -/
theorem setProperty_attribute_error :
    (∀ (env : Env) (p : List Nat) (opt : PropOption),
        setPropertyOp env p opt = ([], .error (.attributeErr "check"))) ∧
    clientMethodNames.contains "check" = false := by
  constructor
  · intro env p opt
    rfl
  · rfl

/-- C2: the claim states that `upload` dispatches on whether the local path
is a directory and suspends until the nested transfer completes. In the
code (client.py lines 1034-1037) the nested `upload_directory` /
`upload_file` coroutine is built but never awaited, so `upload` always
returns immediately with an empty request trace — whereas awaiting
`upload_file` on the same input does issue a PUT (second conjunct). -/
theorem upload_discards_nested_transfer :
    (∀ (fs : Fs) (env : Env) (rp lp : List Nat), uploadOp fs env rp lp = ([], .ok ())) ∧
    ((uploadFileOp demoFs demoEnv (ascii "/f.bin") (ascii "/local/f.bin") false).1.any
        (fun r => r.action == "upload") = true) := by
  constructor
  · exact uploadOp_eq
  · simp [uploadFileOp, demoFs, demoEnv, uploadToOp, urnInit, urnIsDir, ensureLeading,
      collapse2, sub1, quoteB, ascii, isSafeB, existsOp, executeRequest, thenE,
      urnParent, urnNestingLevel, unquoteB]

/-- C4: the claim states parseFreeSpace fails with MethodNotSupported both
when the quota node is absent and when the body does not parse. The code
(utils.py lines 80-98) raises MethodNotSupported for an absent node (and
for a node with no text), but on an unparseable body it RETURNS the value
-1 (a line marked TODO), contradicting the never-returns-a-value half. -/
theorem parseFreeSpace_malformed_returns_value :
    parseFreeSpaceResponse .malformed = .ok (-1) ∧
    parseFreeSpaceResponse (.tree none) = .error (.methodNotSupported "free") ∧
    parseFreeSpaceResponse (.tree (some .noText)) = .error (.methodNotSupported "free") :=
  ⟨rfl, rfl, rfl⟩

/-! ### C3: transfer progress -/

theorem chunked_flatten (cs : Nat) (hcs : 0 < cs) :
    ∀ body : List Nat, (chunked cs body).flatten = body := by
  have H : ∀ (n : Nat) (body : List Nat), body.length ≤ n →
      (chunked cs body).flatten = body := by
    intro n
    induction n with
    | zero =>
      intro body hb
      have hbody : body = [] := by cases body <;> simp_all
      rw [hbody, chunked]
      simp
    | succ n ih =>
      intro body hb
      rw [chunked]
      by_cases h : body = [] ∨ cs = 0
      · rcases h with h | h
        · simp [h]
        · omega
      · simp only [h, if_false, List.flatten_cons]
        rw [not_or] at h
        have hlen : body.length ≠ 0 := fun hz => h.1 (List.eq_nil_of_length_eq_zero hz)
        rw [ih (body.drop cs) (by rw [List.length_drop]; omega)]
        exact List.take_append_drop cs body
  exact fun body => H body.length body le_rfl

theorem chunked_mem_ne_nil (cs : Nat) :
    ∀ (body : List Nat) (c : List Nat), c ∈ chunked cs body → c ≠ [] := by
  have H : ∀ (n : Nat) (body : List Nat), body.length ≤ n →
      ∀ c ∈ chunked cs body, c ≠ [] := by
    intro n
    induction n with
    | zero =>
      intro body hb c hc
      have hbody : body = [] := by cases body <;> simp_all
      rw [hbody, chunked] at hc
      simp at hc
    | succ n ih =>
      intro body hb c hc
      rw [chunked] at hc
      by_cases h : body = [] ∨ cs = 0
      · simp [h] at hc
      · simp only [h, if_false, List.mem_cons] at hc
        rw [not_or] at h
        rcases hc with hc | hc
        · rw [hc]
          intro htake
          rcases List.take_eq_nil_iff.mp htake with h0 | h0
          · exact h.2 h0
          · exact h.1 h0
        · have hlen : body.length ≠ 0 := fun hz => h.1 (List.eq_nil_of_length_eq_zero hz)
          exact ih (body.drop cs) (by rw [List.length_drop]; omega) c hc
  exact fun body => H body.length body le_rfl

theorem progressSeq_chain (t : Nat) :
    ∀ (chunks : List (List Nat)) (cur : Nat), (∀ c ∈ chunks, c ≠ []) →
      List.Chain' (fun a b : Nat × Nat => a.1 < b.1)
        ((cur, t) :: progressSeq chunks cur t) := by
  intro chunks
  induction chunks with
  | nil =>
    intro cur _
    simp [progressSeq]
  | cons c rest ih =>
    intro cur h
    rw [progressSeq, List.chain'_cons]
    refine ⟨?_, ih (cur + c.length) fun x hx => h x (List.mem_cons_of_mem _ hx)⟩
    have : c ≠ [] := h c (List.mem_cons_self _ _)
    have : 0 < c.length := List.length_pos.mpr this
    omega

theorem progressSeq_last (t : Nat) :
    ∀ (chunks : List (List Nat)) (cur : Nat),
      ((cur, t) :: progressSeq chunks cur t).getLast? =
        some (cur + chunks.flatten.length, t) := by
  intro chunks
  induction chunks with
  | nil =>
    intro cur
    simp [progressSeq]
  | cons c rest ih =>
    intro cur
    rw [progressSeq, List.getLast?_cons_cons, ih (cur + c.length)]
    simp only [List.flatten_cons, List.length_append, Option.some.injEq, Prod.mk.injEq]
    refine ⟨by omega, ?_⟩
    trivial

/-- The `file_sender` loop is the chunking of the buffer together with the
cumulative progress reports, whenever `buffer_size` equals the bytes still
to be read plus the bytes already consumed (as in `upload_file`, which
passes the exact file size). -/
theorem fileSender_eq (cs : Nat) :
    ∀ (buf : List Nat) (cur : Nat),
      fileSender cs (cur + buf.length) buf cur =
        (chunked cs buf, progressSeq (chunked cs buf) cur (cur + buf.length)) := by
  have H : ∀ (n : Nat) (buf : List Nat) (cur : Nat), buf.length ≤ n →
      fileSender cs (cur + buf.length) buf cur =
        (chunked cs buf, progressSeq (chunked cs buf) cur (cur + buf.length)) := by
    intro n
    induction n with
    | zero =>
      intro buf cur hb
      have hbody : buf = [] := by cases buf <;> simp_all
      rw [hbody, fileSender, chunked]
      simp [progressSeq]
    | succ n ih =>
      intro buf cur hb
      by_cases hbuf : buf = []
      · rw [hbuf, fileSender, chunked]
        simp [progressSeq]
      · have hpos : 0 < buf.length := List.length_pos.mpr hbuf
        rw [fileSender]
        have hcond : cur < cur + buf.length := by omega
        rw [if_pos hcond]
        by_cases htake : buf.take cs = []
        · have hcs0 : cs = 0 := by
            rcases List.take_eq_nil_iff.mp htake with h0 | h0
            · exact h0
            · exact absurd h0 hbuf
          rw [dif_pos htake, chunked]
          simp [hcs0, progressSeq]
        · rw [dif_neg htake]
          have hcs0 : cs ≠ 0 := by
            intro h0
            exact htake (by simp [h0])
          have hlen : (buf.take cs).length + (buf.drop cs).length = buf.length := by
            rw [List.length_take, List.length_drop]
            omega
          have hdroplen : (buf.drop cs).length ≤ n := by
            rw [List.length_drop]
            omega
          have hIH := ih (buf.drop cs) (cur + (buf.take cs).length) hdroplen
          have harg : cur + (buf.take cs).length + (buf.drop cs).length =
              cur + buf.length := by omega
          rw [harg] at hIH
          dsimp only
          rw [hIH]
          conv_rhs => rw [chunked]
          rw [if_neg (by rw [not_or]; exact ⟨hbuf, hcs0⟩), progressSeq]
  exact fun buf cur => H buf.length buf cur le_rfl

/-- C3: for a single-resource transfer with a progress callback over a
source/response of total size N (the content length of the download, the
buffer size of the upload), the callback sequence starts at (0, N), is
strictly increasing in its first component, ends at (N, N), and the
transferred payload is exactly the N source bytes: the bytes written by
`download_to` equal the response body, the chunks yielded by `file_sender`
flatten back to the upload buffer, and the PUT issued by `upload_to` with a
progress callback carries exactly the buffer as payload (the zero-byte
regression is absent). -/
theorem transfer_progress_monotone_and_full_payload
    (cs : Nat) (body buf : List Nat) (env : Env) (p : List Nat)
    (hcs : 0 < cs) (hcs2 : 0 < env.chunkSize)
    (hdir : urnIsDir (urnInit p false) = false)
    (hpar : (existsOp env (urnParent (urnInit p false))).2 = .ok true) :
    (downloadCallbacks cs body).head? = some (0, body.length) ∧
    List.Chain' (fun a b : Nat × Nat => a.1 < b.1) (downloadCallbacks cs body) ∧
    (downloadCallbacks cs body).getLast? = some (body.length, body.length) ∧
    downloadWritten cs body = body ∧
    (uploadCallbacks cs buf.length buf).head? = some (0, buf.length) ∧
    List.Chain' (fun a b : Nat × Nat => a.1 < b.1) (uploadCallbacks cs buf.length buf) ∧
    (uploadCallbacks cs buf.length buf).getLast? = some (buf.length, buf.length) ∧
    (fileSender cs buf.length buf 0).1.flatten = buf ∧
    ∃ r ∈ (uploadToOp env p buf buf.length true).1,
      r.action = "upload" ∧ r.payload = some buf := by
  have hfs := fileSender_eq cs buf 0
  rw [Nat.zero_add] at hfs
  have hfs2 := fileSender_eq env.chunkSize buf 0
  rw [Nat.zero_add] at hfs2
  refine ⟨rfl, ?_, ?_, ?_, ?_, ?_, ?_, ?_, ?_⟩
  · exact progressSeq_chain _ _ _ (chunked_mem_ne_nil cs body)
  · rw [downloadCallbacks]
    rw [progressSeq_last body.length (chunked cs body) 0]
    rw [chunked_flatten cs hcs body]
    rw [Nat.zero_add]
  · exact chunked_flatten cs hcs body
  · rfl
  · rw [uploadCallbacks, hfs]
    exact progressSeq_chain _ _ _ (chunked_mem_ne_nil cs buf)
  · rw [uploadCallbacks, hfs]
    rw [progressSeq_last buf.length (chunked cs buf) 0]
    rw [chunked_flatten cs hcs buf]
    rw [Nat.zero_add]
  · rw [hfs]
    exact chunked_flatten cs hcs buf
  · unfold uploadToOp
    dsimp only
    rw [hdir]
    simp only [Bool.false_eq_true, if_false]
    rw [thenE_ok _ hpar]
    simp only [if_pos trivial, if_true]
    rw [hfs2, chunked_flatten env.chunkSize hcs2 buf]
    rcases hres : (executeRequest env "upload" (urnInit p false).stored []
        (some buf)).2 with e | st
    · rw [thenE_err _ hres]
      refine ⟨⟨"upload", defaultRequests "upload", (urnInit p false).stored,
        getHeaders env "upload" [], some buf⟩, ?_, rfl, rfl⟩
      simp [executeRequest]
    · rw [thenE_ok _ hres]
      refine ⟨⟨"upload", defaultRequests "upload", (urnInit p false).stored,
        getHeaders env "upload" [], some buf⟩, ?_, rfl, rfl⟩
      simp [executeRequest]

/-- Witness for C3: chunk size 2, response body of three bytes, upload
buffer of three bytes, demo environment, remote path /f.bin. -/
theorem transfer_progress_witness :
    (0 < 2 ∧ urnIsDir (urnInit (ascii "/f.bin") false) = false ∧
      (existsOp demoEnv (urnParent (urnInit (ascii "/f.bin") false))).2 = .ok true) ∧
    ((downloadCallbacks 2 [7, 8, 9]).head? = some (0, [7, 8, 9].length) ∧
      List.Chain' (fun a b : Nat × Nat => a.1 < b.1) (downloadCallbacks 2 [7, 8, 9]) ∧
      (downloadCallbacks 2 [7, 8, 9]).getLast? =
        some ([7, 8, 9].length, [7, 8, 9].length) ∧
      downloadWritten 2 [7, 8, 9] = [7, 8, 9] ∧
      (uploadCallbacks 2 [4, 5, 6].length [4, 5, 6]).head? =
        some (0, [4, 5, 6].length) ∧
      List.Chain' (fun a b : Nat × Nat => a.1 < b.1)
        (uploadCallbacks 2 [4, 5, 6].length [4, 5, 6]) ∧
      (uploadCallbacks 2 [4, 5, 6].length [4, 5, 6]).getLast? =
        some ([4, 5, 6].length, [4, 5, 6].length) ∧
      (fileSender 2 [4, 5, 6].length [4, 5, 6] 0).1.flatten = [4, 5, 6] ∧
      ∃ r ∈ (uploadToOp demoEnv (ascii "/f.bin") [4, 5, 6] [4, 5, 6].length true).1,
        r.action = "upload" ∧ r.payload = some [4, 5, 6]) := by
  have hdir : urnIsDir (urnInit (ascii "/f.bin") false) = false := by
    simp [urnInit, sub1, quoteB, ascii, isSafeB, ensureLeading, collapse2, urnIsDir]
  have hpar : (existsOp demoEnv (urnParent (urnInit (ascii "/f.bin") false))).2 =
      .ok true := by
    simp [existsOp, executeRequest, demoEnv, urnParent, urnInit, urnNestingLevel,
      sub1, quoteB, ascii, isSafeB, ensureLeading, collapse2, unquoteB]
  exact ⟨⟨by decide, hdir, hpar⟩,
    transfer_progress_monotone_and_full_payload 2 [7, 8, 9] [4, 5, 6] demoEnv
      (ascii "/f.bin") (by decide) (by decide) hdir hpar⟩

/-! ### C6, C7 -/

/-- A server oracle that answers the MKCOL with 405 and everything else
with 200 (a Yandex-style server for an already existing collection). -/
def env405 : Env :=
  { hostname := ascii "http://h", root := [], token := none, chunkSize := 65536,
    status := fun a _ => if a = "mkdir" then 405 else 200, listBody := none }

/-- A server oracle that answers every request with 404. -/
def env404 : Env :=
  { hostname := ascii "http://h", root := [], token := none, chunkSize := 65536,
    status := fun _ _ => 404, listBody := none }

/-- A server oracle on which /d/ (the parent of the move destination used
in the move witness) is missing and everything else exists. -/
def envNoParent : Env :=
  { hostname := ascii "http://h", root := [], token := none, chunkSize := 65536,
    status := fun _ p => if p = ascii "/d/" then 404 else 200, listBody := none }

/-- C6: when the parent exists, a 405 answer to the MKCOL is converted into
success (True) by `create_directory` (client.py lines 329-334); when the
parent's existence probe fails, `create_directory` fails with
RemoteParentNotFound and the trace holds no mkdir request (the MKCOL is
never issued). -/
theorem createDirectory_405_success_and_parent_check (env : Env) (p : List Nat) :
    ((existsOp env (urnParent (urnInit p true))).2 = .ok true →
      env.status "mkdir" (urnInit p true).stored = 405 →
      (createDirectoryOp env p).2 = .ok true) ∧
    ((existsOp env (urnParent (urnInit p true))).2 = .ok false →
      (createDirectoryOp env p).2 =
        .error (.remoteParentNotFound (urnPath (urnInit p true))) ∧
      ∀ r ∈ (createDirectoryOp env p).1, r.action ≠ "mkdir") := by
  constructor
  · intro h1 h2
    unfold createDirectoryOp
    dsimp only
    rw [thenE_ok _ h1]
    simp only [if_true]
    simp [executeRequest, h2]
  · intro h1
    unfold createDirectoryOp
    dsimp only
    rw [thenE_ok _ h1]
    constructor
    · simp
    · intro r hr
      simp only [if_false, List.append_nil] at hr
      rw [existsOp_action env (urnParent (urnInit p true)) r hr]
      simp

/-- Witness for C6 at path /a/b, against a server answering MKCOL with 405
(existing parent) and against a server answering everything with 404
(missing parent). -/
theorem createDirectory_witness :
    ((existsOp env405 (urnParent (urnInit (ascii "/a/b") true))).2 = .ok true ∧
      env405.status "mkdir" (urnInit (ascii "/a/b") true).stored = 405 ∧
      (createDirectoryOp env405 (ascii "/a/b")).2 = .ok true) ∧
    ((existsOp env404 (urnParent (urnInit (ascii "/a/b") true))).2 = .ok false ∧
      (createDirectoryOp env404 (ascii "/a/b")).2 =
        .error (.remoteParentNotFound (urnPath (urnInit (ascii "/a/b") true)))) := by
  have hpar : (existsOp env405 (urnParent (urnInit (ascii "/a/b") true))).2 =
      .ok true := by
    simp [existsOp, executeRequest, env405, urnParent, urnInit, urnNestingLevel,
      sub1, quoteB, ascii, isSafeB, ensureLeading, collapse2, unquoteB]
  have hmk : env405.status "mkdir" (urnInit (ascii "/a/b") true).stored = 405 := by
    simp [env405]
  have hpar4 : (existsOp env404 (urnParent (urnInit (ascii "/a/b") true))).2 =
      .ok false := by
    simp [existsOp, executeRequest, env404, urnParent, urnInit, urnNestingLevel,
      sub1, quoteB, ascii, isSafeB, ensureLeading, collapse2, unquoteB]
  exact ⟨⟨hpar, hmk,
      (createDirectory_405_success_and_parent_check env405 (ascii "/a/b")).1 hpar hmk⟩,
    ⟨hpar4,
      ((createDirectory_405_success_and_parent_check env404 (ascii "/a/b")).2 hpar4).1⟩⟩

/-- C7: when the source's existence probe fails, `move` fails with
RemoteResourceNotFound and its trace holds only existence-check requests;
when the source exists but the destination parent's probe fails, `move`
fails with RemoteParentNotFound; when both probes succeed, exactly one MOVE
request is issued, and it carries a Destination header with the full
destination URL and an Overwrite header equal to T or F according to the
overwrite flag. -/
theorem move_preconditions_and_headers (env : Env) (s d : List Nat) (ow : Bool) :
    ((existsOp env (urnPath (urnInit s false))).2 = .ok false →
      (moveOp env s d ow).2 =
        .error (.remoteResourceNotFound (urnPath (urnInit s false))) ∧
      ∀ r ∈ (moveOp env s d ow).1, r.action = "check") ∧
    ((existsOp env (urnPath (urnInit s false))).2 = .ok true →
      (existsOp env (urnParent (urnInit d false))).2 = .ok false →
      (moveOp env s d ow).2 =
        .error (.remoteParentNotFound (urnPath (urnInit d false)))) ∧
    ((existsOp env (urnPath (urnInit s false))).2 = .ok true →
      (existsOp env (urnParent (urnInit d false))).2 = .ok true →
      (moveOp env s d ow).1.filter (fun r => r.action == "move") =
        [⟨"move", "MOVE", (urnInit s false).stored,
          getHeaders env "move"
            [("Destination", env.hostname ++ env.root ++ (urnInit d false).stored),
             ("Overwrite", ascii (if ow then "T" else "F"))], none⟩] ∧
      (getHeaders env "move"
          [("Destination", env.hostname ++ env.root ++ (urnInit d false).stored),
           ("Overwrite", ascii (if ow then "T" else "F"))]).lookup "Destination" =
        some (env.hostname ++ env.root ++ (urnInit d false).stored) ∧
      (getHeaders env "move"
          [("Destination", env.hostname ++ env.root ++ (urnInit d false).stored),
           ("Overwrite", ascii (if ow then "T" else "F"))]).lookup "Overwrite" =
        some (ascii (if ow then "T" else "F"))) := by
  refine ⟨?_, ?_, ?_⟩
  · intro h1
    unfold moveOp
    dsimp only
    rw [thenE_ok _ h1]
    constructor
    · simp
    · intro r hr
      simp only [if_false, List.append_nil] at hr
      exact existsOp_action env (urnPath (urnInit s false)) r hr
  · intro h1 h2
    unfold moveOp
    dsimp only
    rw [thenE_ok _ h1]
    simp only [if_true]
    rw [thenE_ok _ h2]
    simp
  · intro h1 h2
    refine ⟨?_, ?_, ?_⟩
    · unfold moveOp
      dsimp only
      rw [thenE_ok _ h1]
      simp only [if_true]
      rw [thenE_ok _ h2]
      simp only [if_true]
      have hfil : ∀ (a : List Req × Except Err Nat),
          (thenE a (fun _ : Nat => (([] : List Req), Except.ok ()))).1 = a.1 := by
        intro a
        obtain ⟨tr, res⟩ := a
        cases res
        · rfl
        · simp [thenE]
      rw [List.filter_append, List.filter_append, hfil, existsOp_fst, existsOp_fst]
      simp [executeRequest, List.filter, defaultRequests]
    · cases htok : env.token <;>
        simp [getHeaders, defaultHeaders, hdrSet, htok, List.lookup]
    · cases htok : env.token <;>
        simp [getHeaders, defaultHeaders, hdrSet, htok, List.lookup]

/-- Witness for C7: a missing source on the all-404 server, a missing
destination parent on the envNoParent server, and a full success on the
demo server, moving /x to /d/e with overwrite left false. -/
theorem move_witness :
    ((existsOp env404 (urnPath (urnInit (ascii "/x") false))).2 = .ok false ∧
      (moveOp env404 (ascii "/x") (ascii "/d/e") false).2 =
        .error (.remoteResourceNotFound (urnPath (urnInit (ascii "/x") false)))) ∧
    ((existsOp envNoParent (urnPath (urnInit (ascii "/x") false))).2 = .ok true ∧
      (existsOp envNoParent (urnParent (urnInit (ascii "/d/e") false))).2 = .ok false ∧
      (moveOp envNoParent (ascii "/x") (ascii "/d/e") false).2 =
        .error (.remoteParentNotFound (urnPath (urnInit (ascii "/d/e") false)))) ∧
    ((existsOp demoEnv (urnPath (urnInit (ascii "/x") false))).2 = .ok true ∧
      (existsOp demoEnv (urnParent (urnInit (ascii "/d/e") false))).2 = .ok true ∧
      (moveOp demoEnv (ascii "/x") (ascii "/d/e") false).1.filter
          (fun r => r.action == "move") =
        [⟨"move", "MOVE", (urnInit (ascii "/x") false).stored,
          getHeaders demoEnv "move"
            [("Destination",
              demoEnv.hostname ++ demoEnv.root ++ (urnInit (ascii "/d/e") false).stored),
             ("Overwrite", ascii "F")], none⟩]) := by
  have ha : (existsOp env404 (urnPath (urnInit (ascii "/x") false))).2 = .ok false := by
    simp [existsOp, executeRequest, env404, urnInit, sub1, quoteB, ascii, isSafeB,
      ensureLeading, collapse2, unquoteB, urnPath]
  have hb1 : (existsOp envNoParent (urnPath (urnInit (ascii "/x") false))).2 =
      .ok true := by
    simp [existsOp, executeRequest, envNoParent, urnInit, sub1, quoteB, ascii,
      isSafeB, ensureLeading, collapse2, unquoteB, urnPath]
  have hparval : urnParent (urnInit (ascii "/d/e") false) = ascii "/d/" := by
    simp [urnParent, urnInit, urnNestingLevel, sub1, quoteB, ascii, isSafeB,
      ensureLeading, collapse2, unquoteB, List.splitOn, List.splitOnP,
      List.splitOnP.go, List.intercalate, List.intersperse]
  have hb2 : (existsOp envNoParent (urnParent (urnInit (ascii "/d/e") false))).2 =
      .ok false := by
    rw [hparval]
    simp [existsOp, executeRequest, envNoParent, urnInit, sub1, quoteB, ascii,
      isSafeB, ensureLeading, collapse2, unquoteB]
  have hc1 : (existsOp demoEnv (urnPath (urnInit (ascii "/x") false))).2 =
      .ok true := by
    simp [existsOp, executeRequest, demoEnv, urnInit, sub1, quoteB, ascii, isSafeB,
      ensureLeading, collapse2, unquoteB, urnPath]
  have hc2 : (existsOp demoEnv (urnParent (urnInit (ascii "/d/e") false))).2 =
      .ok true := by
    simp [existsOp, executeRequest, demoEnv, urnParent, urnInit, urnNestingLevel,
      sub1, quoteB, ascii, isSafeB, ensureLeading, collapse2, unquoteB]
  refine ⟨⟨ha, ?_⟩, ⟨hb1, hb2, ?_⟩, ⟨hc1, hc2, ?_⟩⟩
  · exact ((move_preconditions_and_headers env404 (ascii "/x") (ascii "/d/e")
      false).1 ha).1
  · exact (move_preconditions_and_headers envNoParent (ascii "/x") (ascii "/d/e")
      false).2.1 hb1 hb2
  · exact ((move_preconditions_and_headers demoEnv (ascii "/x") (ascii "/d/e")
      false).2.2 hc1 hc2).1

/-! ### C5 -/

/-- A server oracle answering every request with 200 whose listing body
holds the requested directory itself plus one child. -/
def envList : Env :=
  { hostname := ascii "http://h", root := [], token := none, chunkSize := 65536,
    status := fun _ _ => 200,
    listBody := some [⟨some (ascii "/dir/"), true, []⟩,
                      ⟨some (ascii "/dir/a.txt"), false, []⟩] }

/-- C5: when the requested path is not the root and its existence probe
fails, `list` fails with RemoteResourceNotFound before issuing the listing
PROPFIND (no request in the trace has action list); and on success, in both
the info and the names branch, every kept entry compares unequal to the
requested directory itself under `Urn.compare_path` (self-exclusion). -/
theorem list_precondition_and_self_exclusion (env : Env) (p : List Nat) (gi : Bool) :
    (urnPath (urnInit p true) ≠ [47] →
      (existsOp env (urnPath (urnInit p true))).2 = .ok false →
      (listOp env p gi).2 =
        .error (.remoteResourceNotFound (urnPath (urnInit p true))) ∧
      ∀ r ∈ (listOp env p gi).1, r.action ≠ "list") ∧
    ((urnPath (urnInit p true) = [47] ∨
        (existsOp env (urnPath (urnInit p true))).2 = .ok true) →
      env.status "list" (urnInit p true).stored < 400 →
      (listOp env p true).2 = .ok (.infos (listKeptInfos env p)) ∧
      (listOp env p false).2 = .ok (.names ((listKeptUrns env p).map urnFilename)) ∧
      (∀ e ∈ listKeptInfos env p, comparePath (listFull env p) e.path = false) ∧
      (∀ u ∈ listKeptUrns env p, comparePath (listFull env p) (urnPath u) = false)) := by
  have hex : env.status "list" (urnInit p true).stored < 400 →
      (executeRequest env "list" (urnInit p true).stored [] none).2 =
        .ok (env.status "list" (urnInit p true).stored) := by
    intro hst
    unfold executeRequest
    dsimp only
    split_ifs with hA hB hC hD
    · omega
    · omega
    · omega
    · omega
    · rfl
  constructor
  · intro hroot hprobe
    unfold listOp
    dsimp only
    rw [if_pos hroot, thenE_ok _ hprobe]
    simp only [Bool.false_eq_true, if_false, List.append_nil]
    rw [thenE_err _ rfl]
    constructor
    · rfl
    · intro r hr
      rw [existsOp_action env (urnPath (urnInit p true)) r hr]
      simp
  · intro hroot hst
    have hpre : ∀ gi2 : Bool, (listOp env p gi2).2 =
        if gi2 then .ok (.infos (listKeptInfos env p))
        else .ok (.names ((listKeptUrns env p).map urnFilename)) := by
      intro gi2
      unfold listOp
      dsimp only
      rcases hroot with hroot | hroot
      · rw [if_neg (by rw [hroot]; exact fun hcon => hcon rfl)]
        rw [thenE_ok _ rfl, thenE_ok _ (hex hst)]
        cases gi2 <;> rfl
      · by_cases hr : urnPath (urnInit p true) ≠ [47]
        · rw [if_pos hr, thenE_ok _ hroot]
          simp only [if_true, List.append_nil]
          rw [thenE_ok _ rfl, thenE_ok _ (hex hst)]
          cases gi2 <;> rfl
        · rw [if_neg hr]
          rw [thenE_ok _ rfl, thenE_ok _ (hex hst)]
          cases gi2 <;> rfl
    refine ⟨by rw [hpre true]; rfl, by rw [hpre false]; rfl, ?_, ?_⟩
    · intro e he
      rw [listKeptInfos, List.mem_filter] at he
      have := he.2
      simp only [Bool.not_eq_eq_eq_not, Bool.not_true] at this
      exact this
    · intro u hu
      rw [listKeptUrns, List.mem_filter] at hu
      have := hu.2
      simp only [Bool.not_eq_eq_eq_not, Bool.not_true] at this
      exact this

/-- Witness for C5: a missing /sub on the all-404 server, and a successful
listing of /dir on envList whose body holds /dir/ itself and /dir/a.txt. -/
theorem list_witness :
    (urnPath (urnInit (ascii "/sub") true) ≠ [47] ∧
      (existsOp env404 (urnPath (urnInit (ascii "/sub") true))).2 = .ok false ∧
      (listOp env404 (ascii "/sub") false).2 =
        .error (.remoteResourceNotFound (urnPath (urnInit (ascii "/sub") true)))) ∧
    ((existsOp envList (urnPath (urnInit (ascii "/dir") true))).2 = .ok true ∧
      envList.status "list" (urnInit (ascii "/dir") true).stored < 400 ∧
      (listOp envList (ascii "/dir") true).2 =
        .ok (.infos (listKeptInfos envList (ascii "/dir"))) ∧
      ∀ u ∈ listKeptUrns envList (ascii "/dir"),
        comparePath (listFull envList (ascii "/dir")) (urnPath u) = false) := by
  have hroot : urnPath (urnInit (ascii "/sub") true) ≠ [47] := by
    simp [urnPath, urnInit, sub1, quoteB, ascii, isSafeB, ensureLeading, collapse2,
      unquoteB]
  have hprobe : (existsOp env404 (urnPath (urnInit (ascii "/sub") true))).2 =
      .ok false := by
    simp [existsOp, executeRequest, env404]
  have hex2 : (existsOp envList (urnPath (urnInit (ascii "/dir") true))).2 =
      .ok true := by
    simp [existsOp, executeRequest, envList]
  have hst : envList.status "list" (urnInit (ascii "/dir") true).stored < 400 := by
    norm_num [envList]
  refine ⟨⟨hroot, hprobe, ?_⟩, ⟨hex2, hst, ?_, ?_⟩⟩
  · exact ((list_precondition_and_self_exclusion env404 (ascii "/sub") false).1
      hroot hprobe).1
  · exact ((list_precondition_and_self_exclusion envList (ascii "/dir") true).2
      (Or.inr hex2) hst).1
  · exact ((list_precondition_and_self_exclusion envList (ascii "/dir") true).2
      (Or.inr hex2) hst).2.2.2

/-! ### C10 -/

/-- C10: for a local path that does not exist, `upload_directory` fails
with OptionNotValid naming local_path (client.py line 976), because the
`os.path.isdir` check precedes the `os.path.exists` check and is false for
a missing path; the LocalResourceNotFound branch is unreachable for every
filesystem and every input (second conjunct). -/
theorem uploadDirectory_missing_local_option_not_valid
    (fs : Fs) (env : Env) (rp lp : List Nat) (h : fs.node lp = none) :
    (uploadDirectoryOp fs env rp lp).2 = .error (.optionNotValid "local_path" lp) ∧
    ∀ (fs' : Fs) (rp' lp' l : List Nat),
      (uploadDirectoryOp fs' env rp' lp').2 ≠ .error (.localResourceNotFound l) := by
  constructor
  · unfold uploadDirectoryOp
    dsimp only
    rw [urnInit_dir_isDir rp]
    simp [Fs.isdir, h]
  · intro fs' rp' lp' l
    unfold uploadDirectoryOp
    dsimp only
    rw [urnInit_dir_isDir rp']
    by_cases hb : fs'.isdir lp'
    · rw [hb, isdir_pathExists fs' lp' hb]
      simp only [Bool.not_true, Bool.false_eq_true, if_false]
      refine thenE_ne_err _ _ _ (existsOp_ne_local _ _ _) fun b => ?_
      refine thenE_ne_err _ _ _ ?_ fun _ => ?_
      · cases b
        · simp
        · exact unlinkOp_ne_local _ _ _
      · refine thenE_ne_err _ _ _ (createDirectoryOp_ne_local _ _ _) fun _ => ?_
        refine foldl_thenE_ne _ _ (fun n => uploadOp_eq _ _ _ _) _ _ ?_
        simp
    · rw [Bool.not_eq_true] at hb
      rw [hb]
      simp


/-- Witness for C10: the demo filesystem has no node at /nope, and
uploading the directory /d from it fails with OptionNotValid naming
local_path. -/
theorem uploadDirectory_missing_local_witness :
    demoFs.node (ascii "/nope") = none ∧
    (uploadDirectoryOp demoFs demoEnv (ascii "/d") (ascii "/nope")).2 =
      .error (.optionNotValid "local_path" (ascii "/nope")) := by
  have h : demoFs.node (ascii "/nope") = none := by
    simp [demoFs, ascii]
  exact ⟨h, (uploadDirectory_missing_local_option_not_valid demoFs demoEnv
    (ascii "/d") (ascii "/nope") h).1⟩

/-! ### C9 -/

theorem getLast?_cons_of_ne_nil (x : Nat) {l : List Nat} (h : l ≠ []) :
    (x :: l).getLast? = l.getLast? := by
  cases l with
  | nil => exact absurd rfl h
  | cons b rest => exact List.getLast?_cons_cons

theorem sub1_eq_nil_iff (s : List Nat) : sub1 s = [] ↔ s = [] := by
  induction s using sub1.induct with
  | case1 => simp [sub1]
  | case2 b rest h ih =>
    rw [sub1, if_pos h]
    simp
  | case3 b rest h ih =>
    rw [sub1, if_neg h]
    simp

theorem sub1_getLast? (s : List Nat) : (sub1 s).getLast? = s.getLast? := by
  induction s using sub1.induct with
  | case1 => simp [sub1]
  | case2 b rest h ih =>
    rw [sub1, if_pos h]
    obtain ⟨hb, htw, hdw⟩ := h
    have hdrop : 47 :: (rest.dropWhile (fun x => x == 46)).tail =
        rest.dropWhile (fun x => x == 46) :=
      List.cons_head?_tail hdw
    have hrest : rest.takeWhile (fun x => x == 46) ++
        rest.dropWhile (fun x => x == 46) = rest :=
      List.takeWhile_append_dropWhile (fun x => x == 46) rest
    have hrne : rest ≠ [] := by
      rw [← hrest, ← hdrop]
      simp
    by_cases htail : (rest.dropWhile (fun x => x == 46)).tail = []
    · rw [htail] at hdrop
      have hsub0 : sub1 ([] : List Nat) = [] := by simp [sub1]
      rw [htail, hsub0]
      have hlast : rest.getLast? = some 47 := by
        conv_lhs => rw [← hrest, ← hdrop]
        rw [List.getLast?_append_of_ne_nil _ (by simp)]
        rfl
      rw [getLast?_cons_of_ne_nil b hrne, hlast]
      rfl
    · have hsub : sub1 (rest.dropWhile (fun x => x == 46)).tail ≠ [] := by
        rw [Ne, sub1_eq_nil_iff]
        exact htail
      rw [getLast?_cons_of_ne_nil 47 hsub, ih, getLast?_cons_of_ne_nil b hrne]
      conv_rhs => rw [← hrest, ← hdrop]
      rw [List.getLast?_append_of_ne_nil _ (by simp),
        getLast?_cons_of_ne_nil 47 htail]
  | case3 b rest h ih =>
    rw [sub1, if_neg h]
    by_cases hrne : rest = []
    · rw [hrne]
      simp [sub1]
    · have hsub : sub1 rest ≠ [] := by
        rw [Ne, sub1_eq_nil_iff]
        exact hrne
      rw [getLast?_cons_of_ne_nil b hsub, ih, getLast?_cons_of_ne_nil b hrne]

theorem collapse2_ne_nil (a : Nat) (l : List Nat) : collapse2 (a :: l) ≠ [] := by
  induction l generalizing a with
  | nil => simp [collapse2]
  | cons b rest ih =>
    rw [collapse2]
    split_ifs
    · exact ih b
    · simp

theorem collapse2_getLast? (s : List Nat) : (collapse2 s).getLast? = s.getLast? := by
  induction s with
  | nil => rfl
  | cons a l ih =>
    cases l with
    | nil => rfl
    | cons b rest =>
      rw [collapse2]
      split_ifs with h
      · rw [ih]
        exact (List.getLast?_cons_cons).symm
      · rw [getLast?_cons_of_ne_nil a (collapse2_ne_nil b rest), ih]
        exact (List.getLast?_cons_cons).symm


theorem quoteB_ne_nil {p : List Nat} (h : p ≠ []) : quoteB p ≠ [] := by
  cases p with
  | nil => exact absurd rfl h
  | cons b rest =>
    rw [quoteB, List.flatMap_cons]
    split_ifs <;> simp

theorem hexUp_ge (v : Nat) : 48 ≤ hexUp v := by
  rw [hexUp]
  split_ifs <;> omega

theorem quoteB_getLast?_ne_sep {p : List Nat} (hp : p.getLast? ≠ some 47) :
    (quoteB p).getLast? ≠ some 47 := by
  rcases List.eq_nil_or_concat p with hnil | ⟨l, a, hla⟩
  · rw [hnil]
    simp [quoteB]
  · rw [hla] at hp ⊢
    rw [List.concat_eq_append] at hp ⊢
    rw [List.getLast?_concat] at hp
    have ha : a ≠ 47 := fun h => hp (by rw [h])
    rw [quoteB, List.flatMap_append, List.flatMap_cons, List.flatMap_nil,
      List.append_nil]
    by_cases hs : isSafeB a = true
    · rw [if_pos hs, List.getLast?_append_of_ne_nil _ (by simp)]
      simp [ha]
    · rw [if_neg hs, List.getLast?_append_of_ne_nil _ (by simp)]
      have hlast : [pctB, hexUp (a / 16), hexUp (a % 16)].getLast? =
          some (hexUp (a % 16)) := rfl
      rw [hlast]
      have h16 := hexUp_ge (a % 16)
      intro h
      have h47 : hexUp (a % 16) = 47 := by injection h
      omega

theorem ensureLeading_getLast? {s : List Nat} (h : s ≠ []) :
    (ensureLeading s).getLast? = s.getLast? := by
  rw [ensureLeading]
  split_ifs
  · rfl
  · exact getLast?_cons_of_ne_nil 47 h

/-- C9 (amended): for every input string, the directory-form locator
reports `is_dir` and its encoded form ends with the separator; and for
every NONEMPTY input string not ending with the separator, the encoded form
of the non-directory locator does not end with the separator. (The claim
as stated, without the nonemptiness restriction, is false: the empty input
yields the encoded form "/", which ends with the separator — see the
counterexample.) -/
theorem urn_directory_flag_and_trailing_sep (p : List Nat) :
    (urnIsDir (urnInit p true) = true ∧
      (urnInit p true).stored.getLast? = some 47) ∧
    (p ≠ [] → p.getLast? ≠ some 47 →
      (urnInit p false).stored.getLast? ≠ some 47) := by
  refine ⟨⟨urnInit_dir_isDir p, ?_⟩, ?_⟩
  · have h := urnInit_dir_isDir p
    rw [urnIsDir, beq_iff_eq] at h
    exact h
  · intro hne hend
    have hq1 : quoteB p ≠ [] := quoteB_ne_nil hne
    have hq2 : (quoteB p).getLast? ≠ some 47 := quoteB_getLast?_ne_sep hend
    have hs1 : sub1 (quoteB p) ≠ [] := by
      rw [Ne, sub1_eq_nil_iff]
      exact hq1
    have hs2 : (sub1 (quoteB p)).getLast? ≠ some 47 := by
      rw [sub1_getLast?]
      exact hq2
    have hc1 : collapse2 (sub1 (quoteB p)) ≠ [] := by
      rcases hx : sub1 (quoteB p) with _ | ⟨x, xs⟩
      · exact absurd hx hs1
      · exact collapse2_ne_nil x xs
    have hc2 : (collapse2 (sub1 (quoteB p))).getLast? ≠ some 47 := by
      rw [collapse2_getLast?]
      exact hs2
    rw [urnInit]
    dsimp only
    rw [if_neg (by simp)]
    rw [ensureLeading_getLast? hc1]
    exact hc2

/-- Counterexample for C9 as stated: the empty string does not end with the
separator, yet the encoded form of its non-directory locator is "/", which
does end with the separator. -/
theorem urn_trailing_sep_cex :
    ¬(([] : List Nat).getLast? = some 47) ∧
    (urnInit ([] : List Nat) false).stored.getLast? = some 47 := by
  constructor
  · simp
  · simp [urnInit, sub1, quoteB, ensureLeading, collapse2]

/-- Witness for the amended C9 at the one-byte input "a". -/
theorem urn_trailing_sep_witness :
    (ascii "a" ≠ [] ∧ (ascii "a").getLast? ≠ some 47) ∧
    (urnIsDir (urnInit (ascii "a") true) = true ∧
      (urnInit (ascii "a") true).stored.getLast? = some 47) ∧
    (urnInit (ascii "a") false).stored.getLast? ≠ some 47 := by
  have h1 : ascii "a" ≠ [] := by decide
  have h2 : (ascii "a").getLast? ≠ some 47 := by decide
  exact ⟨⟨h1, h2⟩, (urn_directory_flag_and_trailing_sep (ascii "a")).1,
    (urn_directory_flag_and_trailing_sep (ascii "a")).2 h1 h2⟩


/-- Properly-quoted byte strings: every byte is safe, or starts a percent
escape holding the uppercase-hex code of an unsafe byte. `quoteB` lands in
this set and the slash-collapsing transforms preserve it; on it, quoting
the unquoted string is the identity. -/
inductive WQ : List Nat → Prop where
  | nil : WQ []
  | safe {b : Nat} {rest : List Nat} : isSafeB b = true → WQ rest → WQ (b :: rest)
  | enc {h1 h2 : Nat} {rest : List Nat} : isUpHexB h1 = true → isUpHexB h2 = true →
      isSafeB (16 * hexVal h1 + hexVal h2) = false → WQ rest →
      WQ (37 :: h1 :: h2 :: rest)

theorem hexVal_lt16 {b : Nat} (h : isHexB b = true) : hexVal b < 16 := by
  rw [isHexB] at h
  rw [hexVal]
  split_ifs <;> simp_all <;> omega

theorem isUpHex_isHex {b : Nat} (h : isUpHexB b = true) : isHexB b = true := by
  simp only [isUpHexB, Bool.or_eq_true, Bool.and_eq_true, decide_eq_true_eq] at h
  simp only [isHexB, Bool.or_eq_true, Bool.and_eq_true, decide_eq_true_eq]
  omega

theorem hexUp_isUpHex {v : Nat} (h : v < 16) : isUpHexB (hexUp v) = true := by
  rw [isUpHexB, hexUp]
  split_ifs <;> simp <;> omega

theorem hexVal_hexUp {v : Nat} (h : v < 16) : hexVal (hexUp v) = v := by
  rw [hexUp, hexVal]
  split_ifs <;> simp_all <;> omega

theorem hexUp_hexVal {b : Nat} (h : isUpHexB b = true) : hexUp (hexVal b) = b := by
  rw [isUpHexB] at h
  rw [hexVal, hexUp]
  split_ifs <;> simp_all <;> omega

theorem isUpHex_ne47 {b : Nat} (h : isUpHexB b = true) : b ≠ 47 := by
  simp only [isUpHexB, Bool.or_eq_true, Bool.and_eq_true, decide_eq_true_eq] at h
  omega

theorem WQ_quoteB {p : List Nat} (hb : ∀ b ∈ p, b < 256) : WQ (quoteB p) := by
  induction p with
  | nil => exact WQ.nil
  | cons b rest ih =>
    have hb256 : b < 256 := hb b (List.mem_cons_self _ _)
    have ihr : WQ (quoteB rest) := ih fun x hx => hb x (List.mem_cons_of_mem _ hx)
    rw [quoteB, List.flatMap_cons]
    by_cases hs : isSafeB b = true
    · rw [if_pos hs]
      exact WQ.safe hs ihr
    · rw [if_neg hs]
      have hdiv : b / 16 < 16 := by omega
      have hmod : b % 16 < 16 := by omega
      refine WQ.enc (hexUp_isUpHex hdiv) (hexUp_isUpHex hmod) ?_ ihr
      rw [hexVal_hexUp hdiv, hexVal_hexUp hmod, Nat.div_add_mod]
      exact Bool.eq_false_iff.mpr hs

theorem unquoteB_cons_of_ne {b : Nat} (hb : b ≠ 37) (rest : List Nat) :
    unquoteB (b :: rest) = b :: unquoteB rest := by
  rcases rest with _ | ⟨h1, rest1⟩
  · simp [unquoteB, hb]
  · rcases rest1 with _ | ⟨h2, rest2⟩
    · simp [unquoteB, hb]
    · simp [unquoteB, hb]

theorem unquoteB_pct {h1 h2 : Nat} (hh1 : isHexB h1 = true) (hh2 : isHexB h2 = true)
    (rest : List Nat) :
    unquoteB (37 :: h1 :: h2 :: rest) =
      (16 * hexVal h1 + hexVal h2) :: unquoteB rest := by
  simp [unquoteB, hh1, hh2]

theorem isSafe_37 : isSafeB 37 = false := rfl

theorem quoteB_unquoteB {r : List Nat} (h : WQ r) : quoteB (unquoteB r) = r := by
  induction h with
  | nil => rfl
  | safe hs hr ih =>
    rename_i b rest
    have hb37 : b ≠ 37 := by
      intro hb
      rw [hb] at hs
      exact absurd hs (by rw [isSafe_37]; simp)
    rw [unquoteB_cons_of_ne hb37, quoteB, List.flatMap_cons, if_pos hs]
    rw [quoteB] at ih
    rw [ih]
    rfl
  | enc hh1 hh2 hv hr ih =>
    rename_i h1 h2 rest
    rw [unquoteB_pct (isUpHex_isHex hh1) (isUpHex_isHex hh2), quoteB,
      List.flatMap_cons, if_neg (by rw [hv]; simp)]
    have hv1 : hexVal h1 < 16 := hexVal_lt16 (isUpHex_isHex hh1)
    have hv2 : hexVal h2 < 16 := hexVal_lt16 (isUpHex_isHex hh2)
    have hdiv : (16 * hexVal h1 + hexVal h2) / 16 = hexVal h1 := by omega
    have hmod : (16 * hexVal h1 + hexVal h2) % 16 = hexVal h2 := by omega
    rw [hdiv, hmod, hexUp_hexVal hh1, hexUp_hexVal hh2]
    rw [quoteB] at ih
    rw [ih]
    rfl

theorem collapse2_cons_of_ne {a : Nat} (ha : a ≠ 47) (l : List Nat) :
    collapse2 (a :: l) = a :: collapse2 l := by
  cases l with
  | nil => rfl
  | cons b rest =>
    rw [collapse2, if_neg (fun h => ha h.1)]

theorem WQ_collapse2 {s : List Nat} (h : WQ s) : WQ (collapse2 s) := by
  induction h with
  | nil => exact WQ.nil
  | safe hs hr ih =>
    rename_i b rest
    cases rest with
    | nil => exact WQ.safe hs WQ.nil
    | cons c rs =>
      rw [collapse2]
      split_ifs with hcc
      · exact ih
      · exact WQ.safe hs ih
  | enc hh1 hh2 hv hr ih =>
    rename_i h1 h2 rest
    rw [collapse2_cons_of_ne (by omega), collapse2_cons_of_ne (isUpHex_ne47 hh1),
      collapse2_cons_of_ne (isUpHex_ne47 hh2)]
    exact WQ.enc hh1 hh2 hv ih

theorem ensureLeading_head (s : List Nat) : (ensureLeading s).head? = some 47 := by
  rw [ensureLeading]
  split_ifs with h
  · exact h
  · rfl

theorem WQ_ensureLeading {s : List Nat} (h : WQ s) : WQ (ensureLeading s) := by
  rw [ensureLeading]
  split_ifs
  · exact h
  · exact WQ.safe rfl h


theorem noDot_quoteB {p : List Nat} (hd : 46 ∉ p) : 46 ∉ quoteB p := by
  intro hm
  rw [quoteB, List.mem_flatMap] at hm
  obtain ⟨b, hbp, hbx⟩ := hm
  by_cases hs : isSafeB b = true
  · rw [if_pos hs] at hbx
    rw [List.mem_singleton] at hbx
    rw [hbx] at hd
    exact hd hbp
  · rw [if_neg hs] at hbx
    have h1 := hexUp_ge (b / 16)
    have h2 := hexUp_ge (b % 16)
    simp only [pctB, List.mem_cons, List.not_mem_nil, or_false] at hbx
    omega

theorem takeWhile_dot_ne_nil {rest : List Nat}
    (h : rest.takeWhile (fun x => x == 46) ≠ []) : 46 ∈ rest := by
  cases rest with
  | nil => simp [List.takeWhile] at h
  | cons c rs =>
    rw [List.takeWhile] at h
    by_cases hc : c = 46
    · rw [hc]
      exact List.mem_cons_self _ _
    · rw [show ((c == 46) : Bool) = false from by simp [hc]] at h
      exact absurd rfl h

theorem sub1_id_of_noDot {s : List Nat} (hd : 46 ∉ s) : sub1 s = s := by
  induction s using sub1.induct with
  | case1 => simp [sub1]
  | case2 b rest h ih =>
    exfalso
    have hdot : 46 ∈ rest := takeWhile_dot_ne_nil h.2.1
    exact hd (List.mem_cons_of_mem _ hdot)
  | case3 b rest h ih =>
    rw [sub1, if_neg h]
    rw [ih fun hm => hd (List.mem_cons_of_mem _ hm)]

theorem mem_collapse2 {s : List Nat} {x : Nat} (h : x ∈ collapse2 s) : x ∈ s := by
  induction s with
  | nil => simp [collapse2] at h
  | cons a l ih =>
    cases l with
    | nil =>
      rw [collapse2] at h
      exact h
    | cons b rest =>
      rw [collapse2] at h
      split_ifs at h with hab
      · exact List.mem_cons_of_mem _ (ih h)
      · rcases List.mem_cons.mp h with hx | hx
        · rw [hx]
          exact List.mem_cons_self _ _
        · exact List.mem_cons_of_mem _ (ih hx)

/-- No two adjacent separators. -/
def noAdj (s : List Nat) : Prop :=
  List.Chain' (fun a b => ¬(a = 47 ∧ b = 47)) s

theorem collapse2_head? (b : Nat) (l : List Nat) :
    (collapse2 (b :: l)).head? = some b := by
  induction l generalizing b with
  | nil => rfl
  | cons c rs ih =>
    rw [collapse2]
    split_ifs with hbc
    · rw [ih c, hbc.1, hbc.2]
    · rfl

theorem collapse2_noAdj (s : List Nat) : noAdj (collapse2 s) := by
  induction s with
  | nil => exact List.chain'_nil
  | cons a l ih =>
    cases l with
    | nil => exact List.chain'_singleton _
    | cons b rest =>
      rw [collapse2]
      split_ifs with hab
      · exact ih
      · rw [noAdj, List.chain'_cons']
        refine ⟨?_, ih⟩
        intro y hy
        rw [collapse2_head? b rest] at hy
        have hyb : y = b := by
          rw [Option.mem_def] at hy
          exact (Option.some.inj hy).symm
        rw [hyb]
        exact hab

theorem collapse2_id_of_noAdj {s : List Nat} (h : noAdj s) : collapse2 s = s := by
  induction s with
  | nil => rfl
  | cons a l ih =>
    cases l with
    | nil => rfl
    | cons b rest =>
      rw [noAdj, List.chain'_cons] at h
      rw [collapse2, if_neg h.1, ih h.2]

theorem noAdj_ensureLeading {s : List Nat} (h : noAdj s) : noAdj (ensureLeading s) := by
  rw [ensureLeading]
  split_ifs with hh
  · exact h
  · cases s with
    | nil => exact List.chain'_singleton _
    | cons c rs =>
      rw [noAdj, List.chain'_cons]
      refine ⟨?_, h⟩
      intro hcon
      exact hh (by rw [hcon.2]; rfl)

theorem ensureLeading_id_of_head {s : List Nat} (h : s.head? = some 47) :
    ensureLeading s = s := by
  rw [ensureLeading, if_pos h]

/-- C8 (amended): path construction is idempotent on every input that
contains no dot byte (the dot-segment regex pass is then inert; the claim
as stated over all strings is false, see the counterexample: the regex
passes run in a fixed order, so a slash run collapsed by the second pass
can expose a new /./ pattern that only a second construction removes). -/
theorem urn_path_idempotent_on_dotfree (p : List Nat)
    (hb : ∀ b ∈ p, b < 256) (hd : 46 ∉ p) :
    urnPath (urnInit (urnPath (urnInit p false)) false) =
      urnPath (urnInit p false) := by
  have hsub : sub1 (quoteB p) = quoteB p := sub1_id_of_noDot (noDot_quoteB hd)
  have hstored : (urnInit p false).stored =
      ensureLeading (collapse2 (quoteB p)) := by
    rw [urnInit]
    dsimp only
    rw [if_neg (by simp), hsub]
  have hwq : WQ (ensureLeading (collapse2 (quoteB p))) :=
    WQ_ensureLeading (WQ_collapse2 (WQ_quoteB hb))
  have hqr : quoteB (unquoteB (ensureLeading (collapse2 (quoteB p)))) =
      ensureLeading (collapse2 (quoteB p)) := quoteB_unquoteB hwq
  have hnod : 46 ∉ ensureLeading (collapse2 (quoteB p)) := by
    rw [ensureLeading]
    split_ifs
    · exact fun hm => noDot_quoteB hd (mem_collapse2 hm)
    · intro hm
      rcases List.mem_cons.mp hm with hx | hx
      · omega
      · exact noDot_quoteB hd (mem_collapse2 hx)
  have hsub2 : sub1 (ensureLeading (collapse2 (quoteB p))) =
      ensureLeading (collapse2 (quoteB p)) := sub1_id_of_noDot hnod
  have hcol2 : collapse2 (ensureLeading (collapse2 (quoteB p))) =
      ensureLeading (collapse2 (quoteB p)) :=
    collapse2_id_of_noAdj (noAdj_ensureLeading (collapse2_noAdj (quoteB p)))
  have hel2 : ensureLeading (ensureLeading (collapse2 (quoteB p))) =
      ensureLeading (collapse2 (quoteB p)) :=
    ensureLeading_id_of_head (ensureLeading_head _)
  have hstored2 :
      (urnInit (unquoteB (ensureLeading (collapse2 (quoteB p)))) false).stored =
        ensureLeading (collapse2 (quoteB p)) := by
    rw [urnInit]
    dsimp only
    rw [if_neg (by simp)]
    rw [hqr, hsub2, hcol2, hel2]
  rw [urnPath, urnPath, hstored, hstored2]

/-- Counterexample for C8 as stated: on the input ".//." the first
construction yields the decoded path "/./." but reconstructing from that
path yields "/." (the slash collapapse of the first pass exposed a /./
segment that only the second construction's dot pass removes). -/
theorem urn_path_not_idempotent_cex :
    urnPath (urnInit (urnPath (urnInit (ascii ".//.") false)) false) ≠
      urnPath (urnInit (ascii ".//.") false) := by
  simp [urnPath, urnInit, sub1, quoteB, ascii, isSafeB, ensureLeading, collapse2,
    unquoteB]

/-- Witness for the amended C8 at the dot-free input "a b//c". -/
theorem urn_path_idempotent_witness :
    (∀ b ∈ ascii "a b//c", b < 256) ∧ 46 ∉ ascii "a b//c" ∧
    urnPath (urnInit (urnPath (urnInit (ascii "a b//c") false)) false) =
      urnPath (urnInit (ascii "a b//c") false) := by
  have h1 : ∀ b ∈ ascii "a b//c", b < 256 := by decide
  have h2 : 46 ∉ ascii "a b//c" := by decide
  exact ⟨h1, h2, urn_path_idempotent_on_dotfree _ h1 h2⟩

end Aiodav
